import Mathlib

/-!
Verification of the DNS performance tester (`src/main.go`) against its
natural-language specification.

The Go program is shallowly embedded below.  Modelling conventions:

* `time.Duration` values are modelled as `ℕ` (nanoseconds).  Every latency in
  the program comes from `time.Since`, hence is nonnegative; int64 overflow of
  a sum of per-query latencies (each bounded by the 5 s resolver timeout) is
  out of reach and is not modelled.
* The network is nondeterministic, so `PerformDNSLookup` is abstracted by a
  resolver oracle `lookup : ℕ → Option Duration` giving, for each 1-based
  sample index, either the measured latency or a failure (`none`), exactly the
  two outcomes the Go caller distinguishes.
* Go's integer division panics at runtime when the divisor is zero.  A
  function whose Go original can panic returns an `Option`, with `none`
  standing for the panic (which aborts the worker and the process).
* Wall-clock time is modelled by a logical clock (`ℕ`) threaded through the
  execution: every timing primitive (`time.Since` completing a measurement,
  `time.Sleep`, `time.Now`) advances it, so "later" means later in program
  order.
-/

namespace DnsPerf

/-- Model of `time.Duration`, in nanoseconds (see module docstring). -/
abbrev Duration := Nat

/-- Go `error` values as observed by this program (only `nil` vs non-`nil`
matters to the control flow; the message is abstract). -/
abbrev GoError := String

/-- Translation of the `Config` struct (src/main.go:20-30).  File-path fields
are irrelevant to the claims and the yaml tags are metadata only. -/
structure Config where
  Domains : List String
  DNSServers : List String
  TestCount : Nat
  QueryInterval : Duration
  Concurrency : Nat
  LogToFile : Bool
  SaveCsv : Bool
  TestRounds : Nat
deriving DecidableEq

/-- Translation of the `DnsTestResult` struct (src/main.go:33-38).
`Timestamp` is a logical-clock reading standing for the `time.Time` taken by
`time.Now()`. -/
structure DnsTestResult where
  Domain : String
  Server : String
  Timestamp : Nat
  Latency : Duration
deriving DecidableEq

/-- Translation of the `DnsWorkItem` struct (src/main.go:41-44). -/
structure DnsWorkItem where
  Domain : String
  DNSServer : String
deriving DecidableEq

/-- The observable log lines the program emits, one constructor per
`Printf`/`Logger.Printf` call site in the source, carrying the data
interpolated at that site. -/
inductive LogEntry where
  /-- src/main.go:149 — a sample's DNS query failed (domain, server, 1-based
  sample index). -/
  | queryError (domain dnsServer : String) (i : Nat)
  /-- src/main.go:153 — a sample succeeded with the given latency. -/
  | sampleLatency (domain dnsServer : String) (i : Nat) (latency : Duration)
  /-- src/main.go:216 — the worker's branch for a non-nil error from
  `StartAndRecordLatencies`. -/
  | processError (domain dnsServer : String)
  /-- src/main.go:220 — the per-item average-latency line. -/
  | avgDelay (domain dnsServer : String) (avg : Duration)
  /-- src/main.go:231 — writing one CSV record failed. -/
  | csvWriteError
  /-- src/main.go:249 — round-completion line. -/
  | roundComplete (round : Nat)
deriving DecidableEq

/-- Translation of `calculateAverageDelay` (src/main.go:196-202):
`sum / time.Duration(len(delays))`.  When `delays` is empty the Go division
is an integer divide by zero, a runtime panic; that outcome is `none`. -/
def calculateAverageDelay (delays : List Duration) : Option Duration :=
  if delays.length = 0 then none
  else some (delays.sum / delays.length)

/-- Accumulator of the sampling loop of `StartAndRecordLatencies`
(src/main.go:146-155): the successful latencies collected so far, the log
lines emitted, the number of `PerformDNSLookup` invocations, the logical
clock, and the clock readings at which each successful sample's measurement
completed. -/
structure SampleAcc where
  delays : List Duration
  logs : List LogEntry
  calls : Nat
  clock : Nat
  sampleTimes : List Nat
deriving DecidableEq

/-- One iteration of the loop in `StartAndRecordLatencies`
(src/main.go:146-155) at sample index `i`: invoke the resolver; on failure
log and continue; on success record the latency (measured at logical time
`clock + 1`), log it, and sleep `interval`. -/
def sampleStep (domain dnsServer : String) (interval : Duration)
    (lookup : Nat → Option Duration) (acc : SampleAcc) (i : Nat) : SampleAcc :=
  let t := acc.clock + 1
  match lookup i with
  | none =>
      { delays := acc.delays
        logs := acc.logs ++ [.queryError domain dnsServer i]
        calls := acc.calls + 1
        clock := t
        sampleTimes := acc.sampleTimes }
  | some latency =>
      { delays := acc.delays ++ [latency]
        logs := acc.logs ++ [.sampleLatency domain dnsServer i latency]
        calls := acc.calls + 1
        clock := t + interval
        sampleTimes := acc.sampleTimes ++ [t] }

/-- The state of `StartAndRecordLatencies`'s sampling loop
(src/main.go:146-155) after running for `i` in `1..count`. -/
def sampleAccOf (domain dnsServer : String) (count : Nat)
    (interval : Duration) (lookup : Nat → Option Duration) (clock : Nat) : SampleAcc :=
  (List.range' 1 count).foldl (sampleStep domain dnsServer interval lookup)
    { delays := [], logs := [], calls := 0, clock := clock, sampleTimes := [] }

/-- Translation of `StartAndRecordLatencies` (src/main.go:144-160): run the
sampling loop for `i` in `1..count` (`sampleAccOf`), then compute the
average.  The first
component is the returned triple `(avgDelay, delays, err)` — with `err`
literally the `nil` of src/main.go:159, modelled `none` — or `none` for the
divide-by-zero panic inside `calculateAverageDelay`.  The second component
exposes the loop's observable effects. -/
def StartAndRecordLatencies (domain dnsServer : String) (count : Nat)
    (interval : Duration) (lookup : Nat → Option Duration) (clock : Nat) :
    Option (Duration × List Duration × Option GoError) × SampleAcc :=
  let acc := sampleAccOf domain dnsServer count interval lookup clock
  match calculateAverageDelay acc.delays with
  | none => (none, acc)
  | some avg => (some (avg, acc.delays, none), acc)

/-- State of the CSV-persistence loop (src/main.go:223-233): records whose
write succeeded so far, number of writes attempted, log lines, logical clock.
`csvOk k` is the sink oracle saying whether the `k`-th attempted
`writeResultToCsv` call (0-based) succeeds — `csv.Writer.Write` on an
underlying file may fail, which the caller only observes as a non-nil
error. -/
structure PersistAcc where
  records : List DnsTestResult
  attempts : Nat
  logs : List LogEntry
  clock : Nat
deriving DecidableEq

/-- One iteration of the persistence loop (src/main.go:223-233): build a
`DnsTestResult` whose `Timestamp` is `time.Now()` — read at logical time
`clock + 1` — and call `writeResultToCsv` (src/main.go:103-115); on failure
log it (src/main.go:231) and continue with the next delay. -/
def persistStep (work : DnsWorkItem) (csvOk : Nat → Bool)
    (acc : PersistAcc) (delay : Duration) : PersistAcc :=
  let t := acc.clock + 1
  let result : DnsTestResult :=
    { Domain := work.Domain, Server := work.DNSServer, Timestamp := t, Latency := delay }
  if csvOk acc.attempts then
    { records := acc.records ++ [result], attempts := acc.attempts + 1
      logs := acc.logs, clock := t }
  else
    { records := acc.records, attempts := acc.attempts + 1
      logs := acc.logs ++ [.csvWriteError], clock := t }

/-- The observable effects of one worker processing one `DnsWorkItem`
(src/main.go:213-235). -/
structure WorkerEffects where
  records : List DnsTestResult
  attempts : Nat
  logs : List LogEntry
  clock : Nat
  sampleTimes : List Nat
deriving DecidableEq

/-- Translation of the worker's body for one dequeued item
(src/main.go:213-235): call `StartAndRecordLatencies`; if it returned a
non-nil error, log and `continue` to the next item; otherwise log the
average and, when `SaveCsv` is set, run the persistence loop.  `none` is the
divide-by-zero panic propagating out of `StartAndRecordLatencies`, which
kills the worker goroutine and crashes the process. -/
def processWorkItem (cfg : Config) (lookup : Nat → Option Duration)
    (csvOk : Nat → Bool) (work : DnsWorkItem) (clock : Nat) :
    Option WorkerEffects :=
  match StartAndRecordLatencies work.Domain work.DNSServer cfg.TestCount
      cfg.QueryInterval lookup clock with
  | (none, _) => none
  | (some (avgDelay, delays, err), acc) =>
    match err with
    | some _ =>
        some { records := [], attempts := 0
               logs := acc.logs ++ [.processError work.Domain work.DNSServer]
               clock := acc.clock, sampleTimes := acc.sampleTimes }
    | none =>
        let logs1 := acc.logs ++ [.avgDelay work.Domain work.DNSServer avgDelay]
        if cfg.SaveCsv then
          let p := delays.foldl (persistStep work csvOk)
            { records := [], attempts := 0, logs := logs1, clock := acc.clock }
          some { records := p.records, attempts := p.attempts, logs := p.logs
                 clock := p.clock, sampleTimes := acc.sampleTimes }
        else
          some { records := [], attempts := 0, logs := logs1
                 clock := acc.clock, sampleTimes := acc.sampleTimes }

/-- Translation of the enqueue loops of `performTestRound`
(src/main.go:239-243): for each domain (outer loop), for each DNS server
(inner loop), enqueue the pair.  The work queue is buffered with capacity
`len(domains) * len(servers)` and fully populated before being closed, so
the queue's content is exactly this list, in this order. -/
def buildWorkItems (domains dnsServers : List String) : List DnsWorkItem :=
  domains.flatMap fun domain =>
    dnsServers.map fun dnsServer => { Domain := domain, DNSServer := dnsServer }

/-- State of the worker pool of one round (src/main.go:205-246): the items
still in the (closed) work queue, and for each of the `n` worker goroutines
the items it has dequeued so far, in order. -/
structure PoolState (n : Nat) where
  queue : List DnsWorkItem
  processed : Fin n → List DnsWorkItem

/-- One scheduling step of the pool: the scheduled worker `w` performs one
`range workQueue` receive.  A channel receive is atomic: it removes exactly
the head item, which only `w` obtains.  If the closed queue is empty the
receive fails and nothing changes (the worker's loop exits). -/
def poolStep {n : Nat} (s : PoolState n) (w : Fin n) : PoolState n :=
  match s.queue with
  | [] => s
  | item :: rest =>
      { queue := rest
        processed := fun j =>
          if j = w then s.processed j ++ [item] else s.processed j }

/-- Run the pool under an arbitrary finite schedule of worker steps. -/
def runPool {n : Nat} (s : PoolState n) (sched : List (Fin n)) : PoolState n :=
  sched.foldl poolStep s

/-- The multiset of all items processed by all workers of a pool state. -/
def allProcessed {n : Nat} (s : PoolState n) : Multiset DnsWorkItem :=
  ∑ j : Fin n, (s.processed j : Multiset DnsWorkItem)

/-- The atomic writes one `writeResultToCsv` call (src/main.go:103-115)
issues to the shared CSV sink: `csv.Writer.Write` emits each field and each
separator as its own write to the underlying buffered writer, and
`writeResultToCsv` takes no lock around the call, so under concurrent
callers these chunks reach the shared sink individually.  Field formatting
(RFC3339 timestamp, latency in milliseconds) is abstracted by `toString` of
the model fields. -/
def csvRecordChunks (result : DnsTestResult) : List String :=
  [result.Domain, ",", result.Server, ",", toString result.Timestamp, ",",
    toString result.Latency, "\n"]

/-- Interleaving of the atomic chunk sequences of two concurrent
`writeResultToCsv` calls, as chosen by a scheduler: `true` takes the next
chunk of the first writer, `false` of the second; an exhausted schedule or
writer lets the rest flush in order. -/
def interleave : List String → List String → List Bool → List String
  | xs, ys, [] => xs ++ ys
  | xs, ys, b :: sched =>
      if b then
        match xs with
        | [] => ys
        | x :: xs => x :: interleave xs ys sched
      else
        match ys with
        | [] => xs
        | y :: ys => y :: interleave xs ys sched

/-- The events of one round that the round-ordering claims speak about. -/
inductive RoundEvent where
  /-- A worker of the given round dequeues an item (src/main.go:213). -/
  | dequeue (round : Nat) (item : DnsWorkItem)
  /-- A worker goroutine of the given round returns (its `wg.Done()` runs,
  src/main.go:211). -/
  | workerReturn (round : Nat) (worker : Nat)
  /-- The round-completion log line (src/main.go:249). -/
  | roundCompleteLog (round : Nat)
deriving DecidableEq

/-- Scheduler freedom of one round: `work` is a possible in-round event
sequence of round `r`: some
interleaving, chosen by the goroutine scheduler, of the dequeues and worker
returns of round `r` only. -/
def IsRoundWork (r : Nat) (work : List RoundEvent) : Prop :=
  ∀ e ∈ work, (∃ item, e = .dequeue r item) ∨ (∃ w, e = .workerReturn r w)

/-- The event trace of one `performTestRound` call (src/main.go:205-253):
an arbitrary scheduler-chosen interleaving `work` of the round's dequeues
and worker returns, then — only after `wg.Wait()` (src/main.go:246) has seen
every worker return — the round-completion log line. -/
def roundTrace (r : Nat) (work : List RoundEvent) : List RoundEvent :=
  work ++ [.roundCompleteLog r]

/-- The event trace of `main`'s round loop (src/main.go:262-276): rounds
`1..rounds` run sequentially, each round's `performTestRound` returning
before the next is called, so the per-round traces concatenate. -/
def mainTrace (rounds : Nat) (work : Nat → List RoundEvent) : List RoundEvent :=
  (List.range' 1 rounds).flatMap fun r => roundTrace r (work r)

/-- Whether a log entry is the worker's "non-nil error from
`StartAndRecordLatencies`" line (src/main.go:216). -/
def LogEntry.isProcessError : LogEntry → Bool
  | .processError _ _ => true
  | _ => false

/-! ### Lemmas about the sampling loop -/

theorem StartAndRecordLatencies_eq (domain dnsServer : String) (count : Nat)
    (interval : Duration) (lookup : Nat → Option Duration) (clock : Nat) :
    StartAndRecordLatencies domain dnsServer count interval lookup clock =
      match calculateAverageDelay
          (sampleAccOf domain dnsServer count interval lookup clock).delays with
      | none => (none, sampleAccOf domain dnsServer count interval lookup clock)
      | some avg =>
          (some (avg, (sampleAccOf domain dnsServer count interval lookup clock).delays,
            none), sampleAccOf domain dnsServer count interval lookup clock) := rfl

theorem sample_foldl_delays (domain dnsServer : String) (interval : Duration)
    (lookup : Nat → Option Duration) (l : List Nat) (acc : SampleAcc) :
    (l.foldl (sampleStep domain dnsServer interval lookup) acc).delays =
      acc.delays ++ l.filterMap lookup := by
  induction l generalizing acc with
  | nil => simp
  | cons i l ih =>
      simp only [List.foldl_cons, ih, List.filterMap_cons]
      cases h : lookup i <;> simp [sampleStep, h]

theorem sample_foldl_calls (domain dnsServer : String) (interval : Duration)
    (lookup : Nat → Option Duration) (l : List Nat) (acc : SampleAcc) :
    (l.foldl (sampleStep domain dnsServer interval lookup) acc).calls =
      acc.calls + l.length := by
  induction l generalizing acc with
  | nil => simp
  | cons i l ih =>
      simp only [List.foldl_cons, ih]
      cases h : lookup i <;> simp [sampleStep, h] <;> omega

theorem sample_foldl_logs_all (domain dnsServer : String) (interval : Duration)
    (lookup : Nat → Option Duration) (p : LogEntry → Bool)
    (hq : ∀ d s i, p (.queryError d s i) = true)
    (hs : ∀ d s i lat, p (.sampleLatency d s i lat) = true)
    (l : List Nat) (acc : SampleAcc) (hacc : acc.logs.all p = true) :
    ((l.foldl (sampleStep domain dnsServer interval lookup) acc).logs.all p) = true := by
  induction l generalizing acc with
  | nil => exact hacc
  | cons i l ih =>
      simp only [List.foldl_cons]
      apply ih
      cases h : lookup i <;> simp [sampleStep, h, List.all_append, hacc, hq, hs]

theorem sample_foldl_clock_le (domain dnsServer : String) (interval : Duration)
    (lookup : Nat → Option Duration) (l : List Nat) (acc : SampleAcc) :
    acc.clock ≤ (l.foldl (sampleStep domain dnsServer interval lookup) acc).clock := by
  induction l generalizing acc with
  | nil => exact Nat.le_refl _
  | cons i l ih =>
      simp only [List.foldl_cons]
      refine Nat.le_trans ?_ (ih _)
      cases h : lookup i <;> (simp [sampleStep, h]; try omega)

theorem sample_foldl_times_le (domain dnsServer : String) (interval : Duration)
    (lookup : Nat → Option Duration) (l : List Nat) (acc : SampleAcc)
    (hacc : ∀ t ∈ acc.sampleTimes, t ≤ acc.clock) :
    ∀ t ∈ (l.foldl (sampleStep domain dnsServer interval lookup) acc).sampleTimes,
      t ≤ (l.foldl (sampleStep domain dnsServer interval lookup) acc).clock := by
  induction l generalizing acc with
  | nil => exact hacc
  | cons i l ih =>
      simp only [List.foldl_cons]
      apply ih
      intro t ht
      cases h : lookup i <;> simp [sampleStep, h] at ht ⊢
      · exact Nat.le_succ_of_le (hacc t ht)
      · rcases ht with ht | ht
        · have := hacc t ht; omega
        · omega

/-! ### Lemmas about the persistence loop -/

theorem persist_foldl_latencies (work : DnsWorkItem) (delays : List Duration)
    (acc : PersistAcc) :
    ((delays.foldl (persistStep work fun _ => true) acc).records).map
        DnsTestResult.Latency =
      acc.records.map DnsTestResult.Latency ++ delays := by
  induction delays generalizing acc with
  | nil => simp
  | cons d delays ih => simp [List.foldl_cons, ih, persistStep]

theorem persist_foldl_attempts (work : DnsWorkItem) (csvOk : Nat → Bool)
    (delays : List Duration) (acc : PersistAcc) :
    (delays.foldl (persistStep work csvOk) acc).attempts =
      acc.attempts + delays.length := by
  induction delays generalizing acc with
  | nil => simp
  | cons d delays ih =>
      simp only [List.foldl_cons, ih]
      by_cases h : csvOk acc.attempts <;> (simp [persistStep, h]; try omega)

theorem persist_foldl_logs_all (work : DnsWorkItem) (csvOk : Nat → Bool)
    (p : LogEntry → Bool) (hw : p .csvWriteError = true)
    (delays : List Duration) (acc : PersistAcc) (hacc : acc.logs.all p = true) :
    ((delays.foldl (persistStep work csvOk) acc).logs.all p) = true := by
  induction delays generalizing acc with
  | nil => exact hacc
  | cons d delays ih =>
      simp only [List.foldl_cons]
      apply ih
      by_cases h : csvOk acc.attempts <;> simp [persistStep, h, List.all_append, hacc, hw]

theorem persist_foldl_clock_le (work : DnsWorkItem) (csvOk : Nat → Bool)
    (delays : List Duration) (acc : PersistAcc) :
    acc.clock ≤ (delays.foldl (persistStep work csvOk) acc).clock := by
  induction delays generalizing acc with
  | nil => exact Nat.le_refl _
  | cons d delays ih =>
      simp only [List.foldl_cons]
      refine Nat.le_trans ?_ (ih _)
      by_cases h : csvOk acc.attempts <;> (simp [persistStep, h]; try omega)

theorem persist_foldl_timestamps (work : DnsWorkItem) (csvOk : Nat → Bool)
    (delays : List Duration) (acc : PersistAcc) :
    ∀ r ∈ (delays.foldl (persistStep work csvOk) acc).records,
      r ∈ acc.records ∨ acc.clock < r.Timestamp := by
  induction delays generalizing acc with
  | nil => intro r hr; exact Or.inl hr
  | cons d delays ih =>
      simp only [List.foldl_cons]
      intro r hr
      rcases ih _ r hr with hmem | hclk
      · by_cases h : csvOk acc.attempts <;> simp [persistStep, h] at hmem
        · rcases hmem with hmem | hmem
          · exact Or.inl hmem
          · right; simp [hmem, persistStep, h]
        · exact Or.inl hmem
      · right
        refine Nat.lt_of_le_of_lt ?_ hclk
        by_cases h : csvOk acc.attempts <;> simp [persistStep, h]

/-! ### Claim theorems -/

/-- C1: evaluation of the code at the failing input.  With two samples that
both fail (zero successful latencies), `StartAndRecordLatencies` does not
return the well-defined zero/empty result the claim requires: it reaches
`calculateAverageDelay` on an empty slice and performs the integer division
by zero (src/main.go:201), a runtime panic, modelled by the `none` first
component. -/
theorem C1_all_samples_fail_divide_by_zero :
    (StartAndRecordLatencies "a.com" "8.8.8.8" 2 0 (fun _ => none) 0).2.delays = [] ∧
    calculateAverageDelay
      (StartAndRecordLatencies "a.com" "8.8.8.8" 2 0 (fun _ => none) 0).2.delays = none ∧
    (StartAndRecordLatencies "a.com" "8.8.8.8" 2 0 (fun _ => none) 0).1 = none :=
  ⟨rfl, rfl, rfl⟩

/-- C2: evaluation of the code at the failing input.  With
`count = TestCount = 0` the loop body never runs, so the resolver is invoked
zero times and zero samples are recorded — but `StartAndRecordLatencies`
then still calls `calculateAverageDelay` on the empty slice and divides by
zero (src/main.go:158, 201), modelled by the `none` first component, instead
of returning without dividing by zero as the claim states. -/
theorem C2_zero_count_still_divides_by_zero :
    (StartAndRecordLatencies "a.com" "8.8.8.8" 0 5 (fun _ => some 7) 3).2.calls = 0 ∧
    (StartAndRecordLatencies "a.com" "8.8.8.8" 0 5 (fun _ => some 7) 3).2.delays = [] ∧
    (StartAndRecordLatencies "a.com" "8.8.8.8" 0 5 (fun _ => some 7) 3).1 = none :=
  ⟨rfl, rfl, rfl⟩

/-- C8: evaluation of the code at the failing input.  A failure local to one
sample is indeed logged with its sample index and domain/server context
(first conjunct), but it does not always leave the WorkItem, worker and
round alive: with `TestCount = 1` and that lone sample failing, the worker's
call runs into the divide-by-zero panic, so processing the WorkItem aborts
(second conjunct, `none`) instead of continuing as the claim states. -/
theorem C8_lone_sample_failure_aborts_worker :
    (StartAndRecordLatencies "a.com" "8.8.8.8" 1 0 (fun _ => none) 0).2.logs =
      [.queryError "a.com" "8.8.8.8" 1] ∧
    processWorkItem
      { Domains := ["a.com"], DNSServers := ["8.8.8.8"], TestCount := 1
        QueryInterval := 0, Concurrency := 1, LogToFile := false
        SaveCsv := true, TestRounds := 1 }
      (fun _ => none) (fun _ => true) { Domain := "a.com", DNSServer := "8.8.8.8" } 0
      = none :=
  ⟨rfl, rfl⟩

/-- C9: `StartAndRecordLatencies` returns the literal `nil` error of
src/main.go:159 whenever it returns at all (its only other behavior being
the divide-by-zero panic), and consequently the worker's error-handling
branch (src/main.go:215-218) is unreachable: no execution of the worker body
ever emits that branch's log line. -/
theorem C9_error_always_nil_branch_unreachable (domain dnsServer : String)
    (count : Nat) (interval : Duration) (lookup : Nat → Option Duration)
    (clock : Nat) (cfg : Config) (csvOk : Nat → Bool) (work : DnsWorkItem) :
    ((StartAndRecordLatencies domain dnsServer count interval lookup clock).1 = none ∨
      ∃ avg delays,
        (StartAndRecordLatencies domain dnsServer count interval lookup clock).1 =
          some (avg, delays, none)) ∧
    (((processWorkItem cfg lookup csvOk work clock).elim [] WorkerEffects.logs).all
      fun e => !e.isProcessError) = true := by
  constructor
  · rw [StartAndRecordLatencies_eq]
    cases h : calculateAverageDelay
        (sampleAccOf domain dnsServer count interval lookup clock).delays
    · left; rfl
    · right; exact ⟨_, _, rfl⟩
  · unfold processWorkItem
    rw [StartAndRecordLatencies_eq]
    cases h : calculateAverageDelay
        (sampleAccOf work.Domain work.DNSServer cfg.TestCount cfg.QueryInterval
          lookup clock).delays
    · rfl
    · have hsample : ((sampleAccOf work.Domain work.DNSServer cfg.TestCount
          cfg.QueryInterval lookup clock).logs.all
            fun e => !e.isProcessError) = true := by
        apply sample_foldl_logs_all <;> simp [LogEntry.isProcessError]
      by_cases hcsv : cfg.SaveCsv
      · simp only [hcsv, if_true, Option.elim]
        apply persist_foldl_logs_all
        · rfl
        · rw [List.all_append, hsample]
          rfl
      · simp only [hcsv, Bool.false_eq_true, if_false, Option.elim]
        rw [List.all_append, hsample]
        rfl

theorem sampleAccOf_delays (domain dnsServer : String) (count : Nat)
    (interval : Duration) (lookup : Nat → Option Duration) (clock : Nat) :
    (sampleAccOf domain dnsServer count interval lookup clock).delays =
      (List.range' 1 count).filterMap lookup := by
  unfold sampleAccOf
  rw [sample_foldl_delays]
  rfl

theorem StartAndRecordLatencies_success (domain dnsServer : String) (count : Nat)
    (interval : Duration) (lookup : Nat → Option Duration) (clock : Nat)
    (hpos : 0 < ((List.range' 1 count).filterMap lookup).length) :
    (StartAndRecordLatencies domain dnsServer count interval lookup clock).1 =
      some (((List.range' 1 count).filterMap lookup).sum /
          ((List.range' 1 count).filterMap lookup).length,
        (List.range' 1 count).filterMap lookup, none) := by
  rw [StartAndRecordLatencies_eq, sampleAccOf_delays]
  have hc : calculateAverageDelay ((List.range' 1 count).filterMap lookup) =
      some (((List.range' 1 count).filterMap lookup).sum /
        ((List.range' 1 count).filterMap lookup).length) := by
    unfold calculateAverageDelay
    rw [if_neg (by omega)]
  rw [hc]

theorem processWorkItem_success (cfg : Config) (lookup : Nat → Option Duration)
    (work : DnsWorkItem) (clock : Nat) (hcsv : cfg.SaveCsv = true)
    (hpos : 0 < ((List.range' 1 cfg.TestCount).filterMap lookup).length) :
    ∃ eff, processWorkItem cfg lookup (fun _ => true) work clock = some eff ∧
      eff.records.map DnsTestResult.Latency =
        (List.range' 1 cfg.TestCount).filterMap lookup := by
  unfold processWorkItem
  rw [StartAndRecordLatencies_eq, sampleAccOf_delays]
  have hc : calculateAverageDelay ((List.range' 1 cfg.TestCount).filterMap lookup) =
      some (((List.range' 1 cfg.TestCount).filterMap lookup).sum /
        ((List.range' 1 cfg.TestCount).filterMap lookup).length) := by
    unfold calculateAverageDelay
    rw [if_neg (by omega)]
  rw [hc]
  simp only [hcsv, if_true]
  refine ⟨_, rfl, ?_⟩
  simpa using persist_foldl_latencies work ((List.range' 1 cfg.TestCount).filterMap lookup)
    { records := [], attempts := 0
      logs := (sampleAccOf work.Domain work.DNSServer cfg.TestCount cfg.QueryInterval
          lookup clock).logs ++
        [.avgDelay work.Domain work.DNSServer
          (((List.range' 1 cfg.TestCount).filterMap lookup).sum /
            ((List.range' 1 cfg.TestCount).filterMap lookup).length)]
      clock := (sampleAccOf work.Domain work.DNSServer cfg.TestCount cfg.QueryInterval
        lookup clock).clock }

/-- C4: the returned average is the arithmetic mean over exactly the
successful samples — the successful latencies, in order, are
`(List.range' 1 TestCount).filterMap lookup`, the failed samples being
excluded — and the persisted records carry exactly those latencies
(assuming at least one sample succeeds, since otherwise the code panics,
see C1).  In particular, with 5 samples of which samples 2 and 4 fail the
average is over exactly the 3 successful latencies and 3 records are
persisted, and with successful latencies 10 ms, 20 ms, 30 ms the average is
exactly 20 ms. -/
theorem C4_mean_and_records_over_successful_samples :
    (∀ (cfg : Config) (lookup : Nat → Option Duration) (work : DnsWorkItem)
      (clock : Nat), cfg.SaveCsv = true →
      0 < ((List.range' 1 cfg.TestCount).filterMap lookup).length →
      (StartAndRecordLatencies work.Domain work.DNSServer cfg.TestCount
          cfg.QueryInterval lookup clock).1 =
        some (((List.range' 1 cfg.TestCount).filterMap lookup).sum /
            ((List.range' 1 cfg.TestCount).filterMap lookup).length,
          (List.range' 1 cfg.TestCount).filterMap lookup, none) ∧
      ∃ eff, processWorkItem cfg lookup (fun _ => true) work clock = some eff ∧
        eff.records.map DnsTestResult.Latency =
          (List.range' 1 cfg.TestCount).filterMap lookup) ∧
    ((StartAndRecordLatencies "a.com" "8.8.8.8" 5 0
        (fun i => if i = 2 ∨ i = 4 then none else some (100 * i)) 0).1 =
      some (300, [100, 300, 500], none) ∧
      ((processWorkItem
        { Domains := ["a.com"], DNSServers := ["8.8.8.8"], TestCount := 5
          QueryInterval := 0, Concurrency := 1, LogToFile := false
          SaveCsv := true, TestRounds := 1 }
        (fun i => if i = 2 ∨ i = 4 then none else some (100 * i)) (fun _ => true)
        { Domain := "a.com", DNSServer := "8.8.8.8" } 0).elim 0
          fun eff => eff.records.length) = 3) ∧
    ((StartAndRecordLatencies "a.com" "8.8.8.8" 3 0
        (fun i => some (i * 10000000)) 0).1 =
      some (20000000, [10000000, 20000000, 30000000], none) ∧
      ((processWorkItem
        { Domains := ["a.com"], DNSServers := ["8.8.8.8"], TestCount := 3
          QueryInterval := 0, Concurrency := 1, LogToFile := false
          SaveCsv := true, TestRounds := 1 }
        (fun i => some (i * 10000000)) (fun _ => true)
        { Domain := "a.com", DNSServer := "8.8.8.8" } 0).elim []
          fun eff => eff.records.map DnsTestResult.Latency) =
        [10000000, 20000000, 30000000]) := by
  refine ⟨fun cfg lookup work clock hcsv hpos => ⟨?_, ?_⟩, by decide, by decide⟩
  · exact StartAndRecordLatencies_success work.Domain work.DNSServer cfg.TestCount
      cfg.QueryInterval lookup clock hpos
  · exact processWorkItem_success cfg lookup work clock hcsv hpos

/-- C4 witness: the universally quantified part of
`C4_mean_and_records_over_successful_samples` instantiated at the concrete
end-to-end configuration (3 samples, fixed latencies 10 ms / 20 ms / 30 ms),
its hypotheses discharged there. -/
theorem C4_mean_and_records_witness :
    (StartAndRecordLatencies "a.com" "8.8.8.8" 3 0
        (fun i => some (i * 10000000)) 0).1 =
      some (20000000, [10000000, 20000000, 30000000], none) :=
  ((C4_mean_and_records_over_successful_samples.1
    { Domains := ["a.com"], DNSServers := ["8.8.8.8"], TestCount := 3
      QueryInterval := 0, Concurrency := 1, LogToFile := false
      SaveCsv := true, TestRounds := 1 }
    (fun i => some (i * 10000000)) { Domain := "a.com", DNSServer := "8.8.8.8" } 0
    rfl (by decide)).1).trans (by decide)

/-! ### Lemmas about the work-item matrix -/

theorem buildWorkItems_length (domains dnsServers : List String) :
    (buildWorkItems domains dnsServers).length =
      domains.length * dnsServers.length := by
  induction domains with
  | nil => simp [buildWorkItems]
  | cons d D ih =>
      simp only [buildWorkItems, List.flatMap_cons, List.length_append,
        List.length_map, List.length_cons] at ih ⊢
      rw [ih]
      ring

theorem buildWorkItems_getElem (domains dnsServers : List String) (i j : Nat)
    (hi : i < domains.length) (hj : j < dnsServers.length) :
    (buildWorkItems domains dnsServers)[i * dnsServers.length + j]? =
      some { Domain := domains[i], DNSServer := dnsServers[j] } := by
  induction domains generalizing i with
  | nil => simp at hi
  | cons d D ih =>
      cases i with
      | zero =>
          simp only [buildWorkItems, List.flatMap_cons, Nat.zero_mul, Nat.zero_add]
          rw [List.getElem?_append, if_pos (by simpa using hj)]
          simp [List.getElem?_eq_getElem hj]
      | succ i =>
          have ih2 := ih i (by simpa using hi)
          simp only [buildWorkItems] at ih2
          simp only [buildWorkItems, List.flatMap_cons]
          rw [List.getElem?_append_right (by simp [Nat.succ_mul]; try omega)]
          have hix : (i + 1) * dnsServers.length + j -
              (dnsServers.map fun dnsServer =>
                ({ Domain := d, DNSServer := dnsServer } : DnsWorkItem)).length =
              i * dnsServers.length + j := by
            simp [Nat.succ_mul]
            try omega
          rw [hix, ih2]
          simp

theorem count_pair_map (d s d0 : String) (S : List String) :
    ((S.map fun srv => ({ Domain := d0, DNSServer := srv } : DnsWorkItem)).count
        { Domain := d, DNSServer := s }) =
      if d = d0 then S.count s else 0 := by
  induction S with
  | nil => simp
  | cons s1 S ih =>
      simp only [List.map_cons, List.count_cons, ih]
      by_cases hd : d0 = d
      · by_cases hs : s1 = s <;> simp [hd, hs, DnsWorkItem.mk.injEq]
      · have hd2 : ¬(d = d0) := fun h => hd h.symm
        by_cases hs : s1 = s <;> simp [hd, hd2, hs, DnsWorkItem.mk.injEq]

theorem buildWorkItems_count (domains dnsServers : List String) (d s : String) :
    ((buildWorkItems domains dnsServers).count { Domain := d, DNSServer := s }) =
      domains.count d * dnsServers.count s := by
  induction domains with
  | nil => simp [buildWorkItems]
  | cons d0 D ih =>
      simp only [buildWorkItems, List.flatMap_cons, List.count_append] at ih ⊢
      rw [ih, count_pair_map, List.count_cons]
      by_cases hd : d0 = d
      · simp [hd]
        ring
      · have hd2 : ¬(d = d0) := fun h => hd h.symm
        simp [hd, hd2]

/-- C5: the WorkItem matrix enqueued for a round is exactly the Cartesian
product `|domains| × |dnsServers|`: it has exactly that many items, the item
at position `i * |dnsServers| + j` is the pair of the `i`-th domain with the
`j`-th server (domain-major order, servers as the inner loop), and every
pair occurs exactly as often as its components occur in the inputs — so
nothing is filtered out and nothing is deduplicated by construction. -/
theorem C5_matrix_cartesian_domain_major (domains dnsServers : List String) :
    (buildWorkItems domains dnsServers).length =
      domains.length * dnsServers.length ∧
    (∀ (i j : Nat) (hi : i < domains.length) (hj : j < dnsServers.length),
      (buildWorkItems domains dnsServers)[i * dnsServers.length + j]? =
        some { Domain := domains[i], DNSServer := dnsServers[j] }) ∧
    (∀ d s, ((buildWorkItems domains dnsServers).count
        { Domain := d, DNSServer := s }) =
      domains.count d * dnsServers.count s) :=
  ⟨buildWorkItems_length domains dnsServers,
    fun i j hi hj => buildWorkItems_getElem domains dnsServers i j hi hj,
    fun d s => buildWorkItems_count domains dnsServers d s⟩

/-- C5 witness: `C5_matrix_cartesian_domain_major` at two domains and two
servers, its index bounds discharged at `i = 1`, `j = 0`. -/
theorem C5_matrix_witness :
    (buildWorkItems ["a.com", "b.com"] ["8.8.8.8", "1.1.1.1"]).length = 4 ∧
    (buildWorkItems ["a.com", "b.com"] ["8.8.8.8", "1.1.1.1"])[1 * 2 + 0]? =
      some { Domain := "b.com", DNSServer := "8.8.8.8" } ∧
    ((buildWorkItems ["a.com", "b.com"] ["8.8.8.8", "1.1.1.1"]).count
      { Domain := "a.com", DNSServer := "1.1.1.1" }) = 1 :=
  ⟨(C5_matrix_cartesian_domain_major ["a.com", "b.com"] ["8.8.8.8", "1.1.1.1"]).1,
    ((C5_matrix_cartesian_domain_major ["a.com", "b.com"]
      ["8.8.8.8", "1.1.1.1"]).2.1 1 0 (by decide) (by decide)),
    (((C5_matrix_cartesian_domain_major ["a.com", "b.com"]
      ["8.8.8.8", "1.1.1.1"]).2.2 "a.com" "1.1.1.1").trans (by decide))⟩

/-! ### Lemmas about the worker pool -/

theorem poolStep_conservation {n : Nat} (s : PoolState n) (w : Fin n) :
    ((poolStep s w).queue : Multiset DnsWorkItem) + allProcessed (poolStep s w) =
      (s.queue : Multiset DnsWorkItem) + allProcessed s := by
  cases hq : s.queue with
  | nil => simp [poolStep, hq]
  | cons item rest =>
      simp only [poolStep, hq, allProcessed]
      have h1 : ∀ j : Fin n,
          ((if j = w then s.processed j ++ [item] else s.processed j :
            List DnsWorkItem) : Multiset DnsWorkItem) =
          (s.processed j : Multiset DnsWorkItem) +
            (if j = w then {item} else 0) := by
        intro j
        by_cases hj : j = w <;>
          simp [hj, ← Multiset.coe_singleton, Multiset.coe_add]
      rw [Finset.sum_congr rfl fun j _ => h1 j, Finset.sum_add_distrib,
        Finset.sum_ite_eq' Finset.univ w fun _ => ({item} : Multiset DnsWorkItem)]
      simp only [← Multiset.cons_coe, ← Multiset.singleton_add, Finset.mem_univ, if_true]
      abel

theorem runPool_conservation {n : Nat} (s : PoolState n) (sched : List (Fin n)) :
    ((runPool s sched).queue : Multiset DnsWorkItem) +
        allProcessed (runPool s sched) =
      (s.queue : Multiset DnsWorkItem) + allProcessed s := by
  induction sched generalizing s with
  | nil => rfl
  | cons w sched ih =>
      calc ((runPool (poolStep s w) sched).queue : Multiset DnsWorkItem) +
            allProcessed (runPool (poolStep s w) sched) =
          ((poolStep s w).queue : Multiset DnsWorkItem) +
            allProcessed (poolStep s w) := ih (poolStep s w)
        _ = (s.queue : Multiset DnsWorkItem) + allProcessed s :=
          poolStep_conservation s w

/-- C7: under any scheduler interleaving that drains the queue, the multiset
union of the items dequeued by the `n` workers of a round equals the full
WorkItem matrix: every enqueued item is consumed by exactly one worker —
each channel receive removes the item it returns, so no item is processed
twice and, once the closed queue is empty, none was dropped. -/
theorem C7_every_item_processed_exactly_once {n : Nat}
    (domains dnsServers : List String) (sched : List (Fin n))
    (hdrained : (runPool
      { queue := buildWorkItems domains dnsServers, processed := fun _ => [] }
      sched).queue = []) :
    allProcessed (runPool
        { queue := buildWorkItems domains dnsServers, processed := fun _ => [] }
        sched) =
      (buildWorkItems domains dnsServers : Multiset DnsWorkItem) := by
  have h := runPool_conservation
    { queue := buildWorkItems domains dnsServers, processed := fun _ => [] } sched
  rw [hdrained] at h
  simpa [allProcessed] using h

/-- C7 witness: `C7_every_item_processed_exactly_once` for two workers
draining the 1×2 matrix under the schedule that alternates the workers,
the drained-queue hypothesis discharged by computation. -/
theorem C7_every_item_witness :
    allProcessed (runPool
        { queue := buildWorkItems ["a.com"] ["8.8.8.8", "1.1.1.1"],
          processed := fun _ => [] } ([0, 1] : List (Fin 2))) =
      (buildWorkItems ["a.com"] ["8.8.8.8", "1.1.1.1"] : Multiset DnsWorkItem) :=
  C7_every_item_processed_exactly_once ["a.com"] ["8.8.8.8", "1.1.1.1"]
    ([0, 1] : List (Fin 2)) (by decide)

/-- C6: in a multi-round run, the completion log line of round `N` is
emitted after every worker return of round `N` (no such return follows it
in the trace) and strictly before any dequeue of round `N + 1` (no such
dequeue precedes it): the trace splits as `A ++ [roundCompleteLog N] ++ B`
with all of round `N`'s worker returns inside `A` and all of round
`N + 1`'s dequeues inside `B`. -/
theorem C6_round_completion_log_ordering (rounds N : Nat)
    (work : Nat → List RoundEvent) (hwork : ∀ r, IsRoundWork r (work r))
    (h1 : 1 ≤ N) (hN : N ≤ rounds) :
    ∃ A B, mainTrace rounds work = A ++ RoundEvent.roundCompleteLog N :: B ∧
      (∀ w, B.count (RoundEvent.workerReturn N w) = 0) ∧
      (∀ item, A.count (RoundEvent.dequeue (N + 1) item) = 0) := by
  refine ⟨(List.range' 1 (N - 1)).flatMap (fun r => roundTrace r (work r)) ++ work N,
    (List.range' (N + 1) (rounds - N)).flatMap (fun r => roundTrace r (work r)),
    ?_, ?_, ?_⟩
  · have hsplit : List.range' 1 rounds =
        List.range' 1 (N - 1) ++ N :: List.range' (N + 1) (rounds - N) := by
      have h2 : List.range' 1 (N - 1) ++
          List.range' (1 + (N - 1)) (rounds - N + 1) =
          List.range' 1 ((rounds - N + 1) + (N - 1)) :=
        List.range'_append_1 1 (N - 1) (rounds - N + 1)
      rw [show 1 + (N - 1) = N by omega, List.range'_succ,
        show (rounds - N + 1) + (N - 1) = rounds by omega] at h2
      exact h2.symm
    unfold mainTrace
    rw [hsplit, List.flatMap_append, List.flatMap_cons]
    simp [roundTrace]
  · intro w
    rw [List.count_eq_zero]
    intro hmem
    rw [List.mem_flatMap] at hmem
    obtain ⟨r, hr, hmem⟩ := hmem
    rw [List.mem_range'] at hr
    obtain ⟨k, hk, rfl⟩ := hr
    simp only [roundTrace] at hmem
    rcases List.mem_append.mp hmem with hmem | hmem
    · rcases hwork _ _ hmem with ⟨item, he⟩ | ⟨w2, he⟩
      · simp at he
      · simp only [RoundEvent.workerReturn.injEq] at he
        omega
    · simp at hmem
  · intro item
    rw [List.count_eq_zero]
    intro hmem
    rcases List.mem_append.mp hmem with hmem | hmem
    · rw [List.mem_flatMap] at hmem
      obtain ⟨r, hr, hmem⟩ := hmem
      rw [List.mem_range'] at hr
      obtain ⟨k, hk, rfl⟩ := hr
      simp only [roundTrace] at hmem
      rcases List.mem_append.mp hmem with hmem | hmem
      · rcases hwork _ _ hmem with ⟨item2, he⟩ | ⟨w2, he⟩
        · simp only [RoundEvent.dequeue.injEq] at he
          obtain ⟨he1, -⟩ := he
          omega
        · simp at he
      · simp at hmem
    · rcases hwork N _ hmem with ⟨item2, he⟩ | ⟨w2, he⟩
      · simp only [RoundEvent.dequeue.injEq] at he
        obtain ⟨he1, -⟩ := he
        omega
      · simp at he

/-- C6 witness: `C6_round_completion_log_ordering` for a three-round run
whose rounds each dequeue one item and return one worker, at `N = 2`. -/
theorem C6_round_completion_witness :
    ∃ A B, mainTrace 3 (fun r =>
        [RoundEvent.dequeue r { Domain := "a.com", DNSServer := "8.8.8.8" },
          RoundEvent.workerReturn r 0]) =
      A ++ RoundEvent.roundCompleteLog 2 :: B ∧
      (∀ w, B.count (RoundEvent.workerReturn 2 w) = 0) ∧
      (∀ item, A.count (RoundEvent.dequeue (2 + 1) item) = 0) :=
  C6_round_completion_log_ordering 3 2
    (fun r => [RoundEvent.dequeue r { Domain := "a.com", DNSServer := "8.8.8.8" },
      RoundEvent.workerReturn r 0])
    (fun r e he => by
      rcases List.mem_cons.mp he with rfl | he2
      · exact Or.inl ⟨_, rfl⟩
      · rcases List.mem_cons.mp he2 with rfl | he3
        · exact Or.inr ⟨0, rfl⟩
        · cases he3)
    (by omega) (by omega)

theorem sampleAccOf_times_le (domain dnsServer : String) (count : Nat)
    (interval : Duration) (lookup : Nat → Option Duration) (clock : Nat) :
    ∀ t ∈ (sampleAccOf domain dnsServer count interval lookup clock).sampleTimes,
      t ≤ (sampleAccOf domain dnsServer count interval lookup clock).clock := by
  unfold sampleAccOf
  exact sample_foldl_times_le domain dnsServer interval lookup
    (List.range' 1 count) _ (by simp)

/-- C10: every record a worker persists for a WorkItem carries a `Timestamp`
read at persistence time, after all of that WorkItem's samples completed:
under the logical clock threaded through the model, each persisted record's
timestamp is strictly later than every successful sample's measurement
time. -/
theorem C10_timestamps_taken_after_all_samples (cfg : Config)
    (lookup : Nat → Option Duration) (csvOk : Nat → Bool) (work : DnsWorkItem)
    (clock : Nat) (eff : WorkerEffects)
    (heff : processWorkItem cfg lookup csvOk work clock = some eff) :
    ∀ r ∈ eff.records, ∀ t ∈ eff.sampleTimes, t < r.Timestamp := by
  unfold processWorkItem at heff
  rw [StartAndRecordLatencies_eq] at heff
  cases hc : calculateAverageDelay (sampleAccOf work.Domain work.DNSServer
      cfg.TestCount cfg.QueryInterval lookup clock).delays with
  | none => rw [hc] at heff; cases heff
  | some avg =>
      rw [hc] at heff
      have hts := sampleAccOf_times_le work.Domain work.DNSServer cfg.TestCount
        cfg.QueryInterval lookup clock
      by_cases hcsv : cfg.SaveCsv
      · simp only [hcsv, if_true, Option.some.injEq] at heff
        subst heff
        intro r hr t ht
        have hrec := persist_foldl_timestamps work csvOk
          (sampleAccOf work.Domain work.DNSServer cfg.TestCount
            cfg.QueryInterval lookup clock).delays
          { records := [], attempts := 0
            logs := (sampleAccOf work.Domain work.DNSServer cfg.TestCount
                cfg.QueryInterval lookup clock).logs ++
              [.avgDelay work.Domain work.DNSServer avg]
            clock := (sampleAccOf work.Domain work.DNSServer cfg.TestCount
              cfg.QueryInterval lookup clock).clock } r hr
        rcases hrec with hmem | hclk
        · cases hmem
        · exact Nat.lt_of_le_of_lt (hts t ht) hclk
      · simp only [hcsv, Bool.false_eq_true, if_false, Option.some.injEq] at heff
        subst heff
        intro r hr
        cases hr

/-- C10 witness: `C10_timestamps_taken_after_all_samples` at a two-sample
run with zero latencies, instantiated at the first persisted record
(timestamp 3) and the last sample's measurement time (2). -/
theorem C10_timestamps_witness : (2 : Nat) <
    (DnsTestResult.Timestamp
      { Domain := "a.com", Server := "8.8.8.8", Timestamp := 3, Latency := 0 }) :=
  C10_timestamps_taken_after_all_samples
    { Domains := ["a.com"], DNSServers := ["8.8.8.8"], TestCount := 2
      QueryInterval := 0, Concurrency := 1, LogToFile := false
      SaveCsv := true, TestRounds := 1 }
    (fun _ => some 0) (fun _ => true) { Domain := "a.com", DNSServer := "8.8.8.8" } 0
    { records := [{ Domain := "a.com", Server := "8.8.8.8", Timestamp := 3, Latency := 0 },
        { Domain := "a.com", Server := "8.8.8.8", Timestamp := 4, Latency := 0 }]
      attempts := 2
      logs := [.sampleLatency "a.com" "8.8.8.8" 1 0, .sampleLatency "a.com" "8.8.8.8" 2 0,
        .avgDelay "a.com" "8.8.8.8" 0]
      clock := 4, sampleTimes := [1, 2] }
    (by decide)
    { Domain := "a.com", Server := "8.8.8.8", Timestamp := 3, Latency := 0 }
    (by decide) 2 (by decide)

/-- C3: the CSV record write is not serialized against concurrent workers.
`writeResultToCsv` (src/main.go:103-115) takes no lock — the only mutex in
the program, `TestRoundMutex`, guards only the round-completion log line
(src/main.go:248-250) — so the field-level writes of two workers' records
can interleave at the shared `csv.Writer`.  Under the two-step schedule
below the shared buffer receives the first field of record A, then the
first field of record B, then the remainders: the result is neither
"record A then record B" nor "record B then record A", i.e. a record is
not fully written before another's bytes intervene, falsifying the claimed
per-record mutual exclusion. -/
theorem C3_csv_record_writes_can_interleave :
    (interleave
        (csvRecordChunks { Domain := "a.com", Server := "8.8.8.8", Timestamp := 5, Latency := 100 })
        (csvRecordChunks { Domain := "b.com", Server := "9.9.9.9", Timestamp := 6, Latency := 200 })
        [true, false] ==
      csvRecordChunks { Domain := "a.com", Server := "8.8.8.8", Timestamp := 5, Latency := 100 } ++
        csvRecordChunks { Domain := "b.com", Server := "9.9.9.9", Timestamp := 6, Latency := 200 }) = false ∧
    (interleave
        (csvRecordChunks { Domain := "a.com", Server := "8.8.8.8", Timestamp := 5, Latency := 100 })
        (csvRecordChunks { Domain := "b.com", Server := "9.9.9.9", Timestamp := 6, Latency := 200 })
        [true, false] ==
      csvRecordChunks { Domain := "b.com", Server := "9.9.9.9", Timestamp := 6, Latency := 200 } ++
        csvRecordChunks { Domain := "a.com", Server := "8.8.8.8", Timestamp := 5, Latency := 100 }) = false ∧
    interleave
        (csvRecordChunks { Domain := "a.com", Server := "8.8.8.8", Timestamp := 5, Latency := 100 })
        (csvRecordChunks { Domain := "b.com", Server := "9.9.9.9", Timestamp := 6, Latency := 200 })
        [true, false] =
      ["a.com", "b.com", ",", "8.8.8.8", ",", "5", ",", "100", "\n",
        ",", "9.9.9.9", ",", "6", ",", "200", "\n"] := by
  refine ⟨by decide, by decide, by decide⟩

/-- C9 witness: `C9_error_always_nil_branch_unreachable` instantiated at a
concrete one-sample run. -/
theorem C9_error_nil_witness :
    ((StartAndRecordLatencies "a.com" "8.8.8.8" 1 0 (fun _ => some 9) 0).1 = none ∨
      ∃ avg delays,
        (StartAndRecordLatencies "a.com" "8.8.8.8" 1 0 (fun _ => some 9) 0).1 =
          some (avg, delays, none)) ∧
    (((processWorkItem
        { Domains := ["a.com"], DNSServers := ["8.8.8.8"], TestCount := 1
          QueryInterval := 0, Concurrency := 1, LogToFile := false
          SaveCsv := true, TestRounds := 1 }
        (fun _ => some 9) (fun _ => true)
        { Domain := "a.com", DNSServer := "8.8.8.8" } 0).elim []
          WorkerEffects.logs).all fun e => !e.isProcessError) = true :=
  C9_error_always_nil_branch_unreachable "a.com" "8.8.8.8" 1 0 (fun _ => some 9) 0
    { Domains := ["a.com"], DNSServers := ["8.8.8.8"], TestCount := 1
      QueryInterval := 0, Concurrency := 1, LogToFile := false
      SaveCsv := true, TestRounds := 1 }
    (fun _ => true) { Domain := "a.com", DNSServer := "8.8.8.8" }

end DnsPerf
